import Mathlib

set_option maxRecDepth 40000

/-!
Verification of the slip-logger's temporal aggregation engine.

The development shallowly embeds the core of the repository:
  - the event store (stores/slipStore.ts): loadEvents, addSlip, deleteSlip,
    undoLastSlip, clearAllEvents over a state of events plus undo bookkeeping;
  - the streak calculator (hooks/useStreak.ts);
  - the range statistics engine (hooks/useStats.ts);
  - the calendar utilities (utils/date.ts): formatDateString, padStart-based
    zero padding, getLastNDays, getDaysAgoDateString.

Modelling conventions:
  - JS epoch-millisecond timestamps are Nat; the device-local calendar day of
    a timestamp is its epoch-day index (a fixed local timezone offset of zero),
    carried as Int so that day arithmetic (getDaysAgoDateString, date ranges)
    never truncates;
  - date-key strings are represented by their day index everywhere except in
    the formatter itself (formatDateString), which is embedded literally as a
    String to study its lexicographic-order contract;
  - the reactive store is state passing: each action is a function of the
    state plus its external inputs (current time, generated id, the results of
    the persistence reads), returning the new state and the action's result.
-/

namespace Slip

/-- Milliseconds per calendar day in the fixed-offset local-time model. -/
def msPerDay : Nat := 86400000

/-- Milliseconds per hour. -/
def msPerHour : Nat := 3600000

/-- source tag of a slip event (types/index.ts). -/
inductive SlipSource where
  | manual
  | undoRestore
deriving DecidableEq

/-- A slip event (types/index.ts): unique id, epoch-millisecond timestamp,
source tag.  The ISO-8601 timestamp string of the source is represented by
the instant itself. -/
structure SlipEvent where
  id : String
  timestamp : Nat
  source : SlipSource
deriving DecidableEq

/-- Local calendar-day index of a timestamp (getDateFromTimestamp composed
with formatDateString, at day-index level). -/
def eventDay (e : SlipEvent) : Int := ((e.timestamp / msPerDay : Nat) : Int)

/-- Local hour of day, 0-23 (getHourFromTimestamp). -/
def eventHour (e : SlipEvent) : Nat := e.timestamp % msPerDay / msPerHour

/-- Local weekday, 0 = Sunday (getDayOfWeekFromTimestamp); epoch day 0 is a
Thursday, weekday 4. -/
def eventWeekday (e : SlipEvent) : Nat := (e.timestamp / msPerDay + 4) % 7

/-- Number of events on calendar day d: the count map countsByDate built by
useStreak and useStats, read back with default 0. -/
def dayCount (events : List SlipEvent) (d : Int) : Nat :=
  (events.filter (fun e => eventDay e == d)).length

/-- Derived streak result (types/index.ts StreakInfo). -/
structure StreakInfo where
  current : Nat
  best : Nat
deriving DecidableEq

/-- The backward walk of useStreak computing the current streak.  Mirrors:
while (true) { if (slipsOnDay <= limit) { streak++; daysAgo++;
if (daysAgo > 365) break; } else break; }.  The fuel argument only bounds
recursion; 366 units are enough, since daysAgo rises by one per step and the
walk stops as soon as daysAgo exceeds 365. -/
def currentStreakGo (counts : Int → Nat) (limit : Nat) (today : Int) :
    Nat → Nat → Nat → Nat
  | 0, _, streak => streak
  | fuel + 1, daysAgo, streak =>
    if counts (today - (daysAgo : Int)) ≤ limit then
      if daysAgo + 1 > 365 then streak + 1
      else currentStreakGo counts limit today fuel (daysAgo + 1) (streak + 1)
    else streak

/-- Current streak of useStreak: the walk started at today with zero streak. -/
def computeCurrentStreak (counts : Int → Nat) (limit : Nat) (today : Int) : Nat :=
  currentStreakGo counts limit today 366 0 0

/-- Days from first to today inclusive (the while (checkDate <= endDate) loop
of the best-streak scan); empty when today precedes first. -/
def dayRange (first today : Int) : List Int :=
  (List.range (today + 1 - first).toNat).map (fun i => first + (i : Int))

/-- One step of the best-streak scan: a compliant day extends the running
streak and updates the maximum; an over-limit day resets the run to 0. -/
def bestScanStep (counts : Int → Nat) (limit : Nat) (bt : Nat × Nat) (d : Int) :
    Nat × Nat :=
  if counts d ≤ limit then (max bt.1 (bt.2 + 1), bt.2 + 1) else (bt.1, 0)

/-- The best-streak scan of useStreak over a list of days, carrying
(bestStreak, tempStreak) initialised to (0, 0). -/
def bestScan (counts : Int → Nat) (limit : Nat) (days : List Int) : Nat × Nat :=
  days.foldl (bestScanStep counts limit) (0, 0)

/-- Earliest event day: allDates = Object.keys(countsByDate).sort() and
allDates[0]; on day indices the minimum.  Only used under a nonemptiness
guard, so the value on [] is irrelevant. -/
def firstEventDay (events : List SlipEvent) : Int :=
  match events.map eventDay with
  | [] => 0
  | d :: ds => ds.foldl min d

/-- The streak calculator useStreak: current via the backward walk; best via
the forward scan from the first event day through today, except that with no
events at all best = current; finally best = max best current. -/
def computeStreak (events : List SlipEvent) (limit : Nat) (today : Int) :
    StreakInfo :=
  let counts := dayCount events
  let current := computeCurrentStreak counts limit today
  if events.isEmpty then
    { current := current, best := current }
  else
    let days := dayRange (firstEventDay events) today
    { current := current, best := max (bestScan counts limit days).1 current }

/-- getLastNDays n: ascending day indices, last element today; the source
loops i = n-1 down to 0 pushing the day i days before today. -/
def lastNDays (n : Nat) (today : Int) : List Int :=
  (List.range n).map (fun i => today - ((n : Int) - 1) + (i : Int))

/-- Per-day entry of the stats breakdown (useStats DayCount).  The
displayDate field of the source is locale-dependent presentation of date and
is omitted. -/
structure DayCount where
  date : Int
  count : Nat
  isOverLimit : Bool
deriving DecidableEq

/-- One step of the bestDay fold of useStats:
if (!bestDay || day.count < bestDay.count) bestDay = day. -/
def pickBest (acc : Option DayCount) (day : DayCount) : Option DayCount :=
  match acc with
  | none => some day
  | some b => if day.count < b.count then some day else some b

/-- One step of the worstDay fold of useStats:
if (!worstDay || day.count > worstDay.count) worstDay = day. -/
def pickWorst (acc : Option DayCount) (day : DayCount) : Option DayCount :=
  match acc with
  | none => some day
  | some b => if day.count > b.count then some day else some b

/-- Events whose local date lies in the trailing range (STEP 2 of useStats). -/
def eventsInRange (events : List SlipEvent) (range : Nat) (today : Int) :
    List SlipEvent :=
  events.filter (fun e => (lastNDays range today).contains (eventDay e))

/-- Number of distinct calendar dates among a list of events
(new Set(eventsInRange.map(getDateFromTimestamp)).size). -/
def uniqueEventDays (events : List SlipEvent) : Nat :=
  (events.map eventDay).dedup.length

/-- Events in a given hour-of-day bucket (the hourCounts record). -/
def hourBucketCount (events : List SlipEvent) (h : Nat) : Nat :=
  (events.filter (fun e => eventHour e == h)).length

/-- Events in a given weekday bucket (the dayOfWeekCounts record). -/
def dowBucketCount (events : List SlipEvent) (w : Nat) : Nat :=
  (events.filter (fun e => eventWeekday e == w)).length

/-- The peak-bucket scan of useStats over Object.entries of a bucket record:
present keys (nonzero counts) in ascending numeric key order, carrying
(maxCount, maxKey) from (0, 0) and updating on strictly greater counts. -/
def maxBucket (counts : Nat → Nat) (keys : List Nat) : Nat × Nat :=
  (keys.filter (fun k => counts k != 0)).foldl
    (fun m k => if counts k > m.1 then (counts k, k) else m) (0, 0)

/-- Result record of the range statistics engine (useStats StatsData).
peakHour and peakDayOfWeek carry the winning bucket key (hour 0-23,
weekday 0-6); the source renders these through formatHourRange and
getDayName for display. -/
structure StatsData where
  totalSlips : Nat
  avgPerDay : ℚ
  bestDay : Option DayCount
  worstDay : Option DayCount
  daysUnderLimitPercent : ℚ
  dailyCounts : List DayCount
  peakHour : Option Nat
  peakDayOfWeek : Option Nat
  hasEnoughDataForPatterns : Bool
  hasAnyData : Bool
deriving DecidableEq

/-- Minimum distinct event dates before patterns are reported
(utils/constants.ts). -/
def MIN_DAYS_FOR_PATTERNS : Nat := 3

/-- STEP 4 of useStats: the dense per-day breakdown, most recent day first
(datesInRange reversed), each date paired with its count and over-limit
flag. -/
def dailyCountsOf (events : List SlipEvent) (range : Nat) (limit : Nat)
    (today : Int) : List DayCount :=
  (lastNDays range today).reverse.map (fun d =>
    { date := d, count := dayCount (eventsInRange events range today) d,
      isOverLimit := decide (dayCount (eventsInRange events range today) d > limit) })

/-- Number of in-range days at or under the limit (the daysUnderLimit
filter of useStats). -/
def daysUnderLimitCount (events : List SlipEvent) (range : Nat) (limit : Nat)
    (today : Int) : Nat :=
  ((dailyCountsOf events range limit today).filter
    (fun dc => dc.count ≤ limit)).length

/-- The range statistics engine useStats for a trailing window of range days
ending today. -/
def computeStats (events : List SlipEvent) (range : Nat) (limit : Nat)
    (today : Int) : StatsData :=
  let inRange := eventsInRange events range today
  let dailyCounts := dailyCountsOf events range limit today
  let totalSlips := inRange.length
  let avgPerDay : ℚ := if range > 0 then (totalSlips : ℚ) / (range : ℚ) else 0
  let bestDay := dailyCounts.foldl pickBest none
  let worstDay := dailyCounts.foldl pickWorst none
  let daysUnderLimitPercent : ℚ :=
    if range > 0 then
      ((daysUnderLimitCount events range limit today : ℚ) / (range : ℚ)) * 100
    else 0
  let hasEnough := uniqueEventDays inRange ≥ MIN_DAYS_FOR_PATTERNS
  let hourMax := maxBucket (hourBucketCount inRange) (List.range 24)
  let dowMax := maxBucket (dowBucketCount inRange) (List.range 7)
  let peakHour : Option Nat :=
    if hasEnough ∧ inRange.length ≥ 3 then
      if hourMax.1 ≥ 2 then some hourMax.2 else none
    else none
  let peakDayOfWeek : Option Nat :=
    if hasEnough ∧ inRange.length ≥ 3 then
      if dowMax.1 ≥ 2 then some dowMax.2 else none
    else none
  { totalSlips := totalSlips
    avgPerDay := avgPerDay
    bestDay := bestDay
    worstDay := worstDay
    daysUnderLimitPercent := daysUnderLimitPercent
    dailyCounts := dailyCounts
    peakHour := peakHour
    peakDayOfWeek := peakDayOfWeek
    hasEnoughDataForPatterns := decide hasEnough
    hasAnyData := decide (events.length > 0) }

/-- Specification-side reading of the bestDay fold: the first element of the
list attaining the minimum of f, none on the empty list.  On a tie the
earlier element wins. -/
def firstMinBy (f : DayCount → Nat) : List DayCount → Option DayCount
  | [] => none
  | a :: l => match firstMinBy f l with
    | none => some a
    | some b => if f b < f a then some b else some a

/-- Specification-side reading of the worstDay fold: the first element of
the list attaining the maximum of f, none on the empty list. -/
def firstMaxBy (f : DayCount → Nat) : List DayCount → Option DayCount
  | [] => none
  | a :: l => match firstMaxBy f l with
    | none => some a
    | some b => if f b > f a then some b else some a

/-- Prefer an earlier minimum b over a later candidate. -/
def minPref (b : DayCount) (o : Option DayCount) : DayCount :=
  match o with
  | none => b
  | some m => if m.count < b.count then m else b

/-- Prefer an earlier maximum b over a later candidate. -/
def maxPref (b : DayCount) (o : Option DayCount) : DayCount :=
  match o with
  | none => b
  | some m => if m.count > b.count then m else b

/-- State of the event store (stores/slipStore.ts): the canonical event list,
the loading flag, and the undo bookkeeping pair. -/
structure StoreState where
  events : List SlipEvent
  isLoading : Bool
  lastSlipId : Option String
  lastSlipTime : Option Nat
deriving DecidableEq

/-- The store's initial state. -/
def initialState : StoreState :=
  { events := [], isLoading := true, lastSlipId := none, lastSlipTime := none }

/-- The undo window UNDO_WINDOW_MS = 5 * 60 * 1000. -/
def undoWindowMs : Nat := 5 * 60 * 1000

/-- loadEvents: on a successful try, the two persistence reads deliver the
stored event list and the independently stored last-slip time; lastSlipId is
recomputed as the id of the last stored event (or null on an empty list).
A thrown read (result = none) leaves everything but isLoading unchanged. -/
def loadEvents (s : StoreState)
    (result : Option (List SlipEvent × Option Nat)) : StoreState :=
  match result with
  | some (evs, storedTime) =>
    { s with
      events := evs
      lastSlipId := (evs.getLast?).map (fun e => e.id)
      lastSlipTime := storedTime
      isLoading := false }
  | none => { s with isLoading := false }

/-- addSlip at instant now with the generated id: appends a manual event and
arms the undo pair with the new id and instant.  Persistence write-through
does not affect the in-memory state. -/
def addSlip (s : StoreState) (now : Nat) (newId : String) : StoreState :=
  { s with
    events := s.events ++ [{ id := newId, timestamp := now, source := .manual }]
    lastSlipId := some newId
    lastSlipTime := some now }

/-- deleteSlip: removes every event with the given id; the undo pair is left
untouched. -/
def deleteSlip (s : StoreState) (i : String) : StoreState :=
  { s with events := s.events.filter (fun e => e.id != i) }

/-- undoLastSlip at instant now.  The JS guard (!lastSlipId || !lastSlipTime)
is falsy on null, on the empty string and on time 0; then the wall-clock
window check; on success the referenced event is filtered out and the undo
pair cleared. -/
def undoLastSlip (s : StoreState) (now : Nat) : Bool × StoreState :=
  match s.lastSlipId, s.lastSlipTime with
  | some i, some t =>
    if i = "" ∨ t = 0 then (false, s)
    else if (now : Int) - (t : Int) > (undoWindowMs : Int) then (false, s)
    else
      (true,
        { s with
          events := s.events.filter (fun e => e.id != i)
          lastSlipId := none
          lastSlipTime := none })
  | _, _ => (false, s)

/-- clearAllEvents: empties the collection and clears the undo pair. -/
def clearAllEvents (s : StoreState) : StoreState :=
  { s with events := [], lastSlipId := none, lastSlipTime := none }

/-- The UndoState invariant: lastSlipId and lastSlipTime are present
together or absent together. -/
def UndoInv (s : StoreState) : Prop :=
  s.lastSlipId.isSome = s.lastSlipTime.isSome

instance : DecidablePred UndoInv := fun s =>
  inferInstanceAs (Decidable (s.lastSlipId.isSome = s.lastSlipTime.isSome))

/-- Daily counts 2, 3, 1 on the three most recent days (98, 99, today = 100),
oldest to newest, and no other events: the input of the third streak claim. -/
def c3events : List SlipEvent :=
  [{ id := "a", timestamp := 98 * msPerDay, source := .manual },
   { id := "b", timestamp := 98 * msPerDay + 1, source := .manual },
   { id := "c", timestamp := 99 * msPerDay, source := .manual },
   { id := "d", timestamp := 99 * msPerDay + 1, source := .manual },
   { id := "e", timestamp := 99 * msPerDay + 2, source := .manual },
   { id := "f", timestamp := 100 * msPerDay, source := .manual }]

/-- Five events on a single day (97) and nothing else: with today = 100 and
range 7 all five fall in the window; input of the seventh claim. -/
def c7events : List SlipEvent :=
  [{ id := "a", timestamp := 97 * msPerDay, source := .manual },
   { id := "b", timestamp := 97 * msPerDay + 1, source := .manual },
   { id := "c", timestamp := 97 * msPerDay + 2, source := .manual },
   { id := "d", timestamp := 97 * msPerDay + 3, source := .manual },
   { id := "e", timestamp := 97 * msPerDay + 4, source := .manual }]

/-- Base-10 digits of n, least significant first, by fuelled recursion so
that the definition is kernel-computable; fuel n suffices since n/10
strictly decreases. -/
def digitsAux : Nat → Nat → List Nat
  | 0, _ => []
  | fuel + 1, n => if n = 0 then [] else n % 10 :: digitsAux fuel (n / 10)

/-- Base-10 digits of n, least significant first. -/
def decDigits (n : Nat) : List Nat := digitsAux n n

/-- The decimal digit characters of n, most significant first. -/
def digitChars (n : Nat) : List Char := ((decDigits n).map Nat.digitChar).reverse

/-- Decimal string of a nonnegative integer, as a JS template literal
renders it: no padding, and 0 prints as the single character 0. -/
def decimalString (n : Nat) : String :=
  if n = 0 then "0" else (digitChars n).asString

/-- String.prototype.padStart: left-pad with the pad character up to the
target width; a string already at or beyond the width is unchanged. -/
def padStart (s : String) (w : Nat) (c : Char) : String :=
  (List.replicate (w - s.length) c).asString ++ s

/-- toString().padStart(2, "0") applied to a month or day number. -/
def pad2 (n : Nat) : String := padStart (decimalString n) 2 '0'

/-- formatDateString of stores/settingsStore.ts over a local calendar date
(year, month, day): unpadded year, zero-padded two-digit month and day,
joined by dashes. -/
def formatDateString (y m d : Nat) : String :=
  decimalString y ++ "-" ++ pad2 m ++ "-" ++ pad2 d

/-- Chronological order of local calendar dates in the common era. -/
def dateLt (y1 m1 d1 y2 m2 d2 : Nat) : Prop :=
  y1 < y2 ∨ (y1 = y2 ∧ (m1 < m2 ∨ (m1 = m2 ∧ d1 < d2)))

/-- Three events on three distinct days (97, 98, 99), all in hour 9 of the
day but on three different weekdays: an eligible input whose hour buckets
have a unique winner and whose weekday buckets have no bucket of size 2. -/
def c6events : List SlipEvent :=
  [{ id := "a", timestamp := 97 * msPerDay + 9 * msPerHour, source := .manual },
   { id := "b", timestamp := 98 * msPerDay + 9 * msPerHour, source := .manual },
   { id := "c", timestamp := 99 * msPerDay + 9 * msPerHour, source := .manual }]

/-! ## General lemmas about the streak walk -/

theorem currentStreakGo_le (counts : Int → Nat) (limit : Nat) (today : Int) :
    ∀ fuel daysAgo streak,
      currentStreakGo counts limit today fuel daysAgo streak ≤ streak + fuel := by
  intro fuel
  induction fuel with
  | zero => intro daysAgo streak; simp [currentStreakGo]
  | succ n ih =>
    intro daysAgo streak
    simp only [currentStreakGo]
    split
    · split
      · omega
      · have := ih (daysAgo + 1) (streak + 1)
        omega
    · omega

theorem currentStreakGo_all_compliant (counts : Int → Nat) (limit : Nat)
    (today : Int) (h : ∀ d, counts d ≤ limit) :
    ∀ fuel daysAgo streak, daysAgo ≤ 365 →
      currentStreakGo counts limit today fuel daysAgo streak =
        streak + min fuel (366 - daysAgo) := by
  intro fuel
  induction fuel with
  | zero => intro daysAgo streak _; simp [currentStreakGo]
  | succ n ih =>
    intro daysAgo streak hle
    simp only [currentStreakGo, if_pos (h _)]
    split
    · have : daysAgo = 365 := by omega
      subst this
      omega
    · rw [ih (daysAgo + 1) (streak + 1) (by omega)]
      omega

theorem computeStreak_current (events : List SlipEvent) (limit : Nat)
    (today : Int) :
    (computeStreak events limit today).current =
      computeCurrentStreak (dayCount events) limit today := by
  unfold computeStreak
  split <;> rfl

/-! ## Claim C2: the safety bound of the backward streak walk -/

/-- Claim C2, counterexample to the stated bound: with zero events ever
logged the walk returns a current streak of 366, exceeding 365. -/
theorem c2_counterexample : 365 < (computeStreak [] 1 0).current := by decide

/-- Claim C2, amended: the backward walk examines today plus at most 365
earlier days, so the current streak never exceeds 366; with zero events ever
logged every examined day is compliant, so current = 366 and best = current. -/
theorem c2_amended :
    (∀ (events : List SlipEvent) (limit : Nat) (today : Int),
      (computeStreak events limit today).current ≤ 366) ∧
    (∀ (limit : Nat) (today : Int),
      computeStreak [] limit today = { current := 366, best := 366 }) := by
  constructor
  · intro events limit today
    rw [computeStreak_current]
    have := currentStreakGo_le (dayCount events) limit today 366 0 0
    simpa [computeCurrentStreak] using this
  · intro limit today
    have hc : ∀ d, dayCount [] d ≤ limit := by intro d; simp [dayCount]
    have h := currentStreakGo_all_compliant (dayCount ([] : List SlipEvent))
      limit today hc 366 0 0 (by omega)
    simp [computeStreak, computeCurrentStreak, h]

/-! ## Claim C3: daily counts 2, 3, 1 with limit 3 -/

/-- Claim C3, counterexample: on daily counts 2, 3, 1 (days 98, 99, 100,
today = 100) with limit 3 the walk does not stop after the three event days
— zero-count days before them also extend the streak — and returns 366,
not 3. -/
theorem c3_counterexample : (computeStreak c3events 3 100).current = 366 := by
  decide

/-- Claim C3, amended: with limit 3 and daily counts 2, 3, 1 on the three
most recent days and no other events, every walked day (the three event days
and all earlier zero-count days) is at or under the limit, so the walk runs
to the safety bound and the current streak is 366. -/
theorem c3_amended : computeStreak c3events 3 100 =
    { current := 366, best := 366 } := by decide

/-! ## Claim C7: range 7, five events on one day, limit 3 -/

/-- Claim C7: for range 7, five events on a single in-range day and limit 3,
the statistics engine reports totalSlips = 5, avgPerDay = 5/7, a worst day
with count 5, a best day with count 0, and daysUnderLimitPercent = 600/7. -/
theorem c7_stats_single_day :
    (computeStats c7events 7 3 100).totalSlips = 5 ∧
    (computeStats c7events 7 3 100).avgPerDay = 5 / 7 ∧
    ((computeStats c7events 7 3 100).worstDay).map DayCount.count = some 5 ∧
    ((computeStats c7events 7 3 100).bestDay).map DayCount.count = some 0 ∧
    (computeStats c7events 7 3 100).daysUnderLimitPercent = 600 / 7 := by
  refine ⟨by decide, ?_, by decide, by decide, ?_⟩
  · have h : eventsInRange c7events 7 100 = c7events := by decide
    simp only [computeStats, h]
    norm_num [c7events]
  · have h6 : daysUnderLimitCount c7events 7 3 100 = 6 := by decide
    simp only [computeStats, h6]
    norm_num

/-! ## Claim C9: a range of zero degenerates to all-zero statistics -/

/-- Claim C9: for range 0 and any event collection the engine returns
all-zero statistics — no slips, zero averages and percentages (both divisions
by range are behind a range > 0 guard), an empty breakdown, and null best
day, worst day and patterns; hasAnyData still reflects the unfiltered
collection. -/
theorem c9_range_zero (events : List SlipEvent) (limit : Nat) (today : Int) :
    computeStats events 0 limit today =
      { totalSlips := 0, avgPerDay := 0, bestDay := none, worstDay := none,
        daysUnderLimitPercent := 0, dailyCounts := [], peakHour := none,
        peakDayOfWeek := none, hasEnoughDataForPatterns := false,
        hasAnyData := decide (events.length > 0) } := by
  have h : eventsInRange events 0 today = [] := by
    simp [eventsInRange, lastNDays]
  simp [computeStats, dailyCountsOf, daysUnderLimitCount, h, lastNDays,
    uniqueEventDays, MIN_DAYS_FOR_PATTERNS, maxBucket]

/-! ## Claim C4: the UndoState invariant across store operations -/

/-- Claim C4, counterexample: from the reachable initial state, loadEvents
with a persistence read holding one stored event but no stored last-slip
time leaves lastSlipId present and lastSlipTime absent, breaking the
both-or-neither invariant. -/
theorem c4_counterexample :
    UndoInv initialState ∧
    (loadEvents initialState
      (some ([{ id := "a", timestamp := 0, source := .manual }], none))).lastSlipId
        = some "a" ∧
    (loadEvents initialState
      (some ([{ id := "a", timestamp := 0, source := .manual }], none))).lastSlipTime
        = none := by
  decide

/-- Claim C4, amended: addSlip, deleteSlip, undoLastSlip and clearAllEvents
preserve the UndoState invariant in every state, and a failed loadEvents
preserves it too; a successful loadEvents, however, establishes the
invariant exactly when its two independent persistence reads agree, that is
when the stored event list is empty precisely if the stored last-slip time
is absent. -/
theorem c4_amended :
    (∀ (s : StoreState) (now : Nat) (newId i : String),
      UndoInv s →
        UndoInv (addSlip s now newId) ∧
        UndoInv (deleteSlip s i) ∧
        UndoInv (undoLastSlip s now).2 ∧
        UndoInv (clearAllEvents s) ∧
        UndoInv (loadEvents s none)) ∧
    (∀ (s : StoreState) (evs : List SlipEvent) (t : Option Nat),
      UndoInv (loadEvents s (some (evs, t))) ↔ (evs = [] ↔ t = none)) := by
  constructor
  · intro s now newId i hInv
    refine ⟨by simp [UndoInv, addSlip],
      by simpa [UndoInv, deleteSlip] using hInv, ?_,
      by simp [UndoInv, clearAllEvents],
      by simpa [UndoInv, loadEvents] using hInv⟩
    cases h1 : s.lastSlipId <;> cases h2 : s.lastSlipTime <;>
      simp [undoLastSlip, h1, h2]
    · exact hInv
    · simp [UndoInv, h1, h2] at hInv
    · simp [UndoInv, h1, h2] at hInv
    · split_ifs <;> simp [UndoInv, h1, h2]
  · intro s evs t
    cases t <;> rcases evs with _ | ⟨e, es⟩ <;>
      simp [UndoInv, loadEvents, List.getLast?]

/-- Witness for c4_amended at the initial state. -/
theorem c4_witness :
    UndoInv initialState ∧ UndoInv (addSlip initialState 5 "x") :=
  ⟨by decide, (c4_amended.1 initialState 5 "x" "y" (by decide)).1⟩

/-! ## Claim C5: undoLastSlip success, failure and one-shot consumption -/

/-- Claim C5: when the undo pair is armed with the most recently recorded
event and the call is within the five-minute window, undoLastSlip returns
true, removes exactly that event and clears the pair, after which an
immediate second call returns false; with the pair absent, or with the
window elapsed, it returns false and leaves the state unchanged. -/
theorem c5_undo_semantics :
    ∀ (s : StoreState) (pre : List SlipEvent) (e : SlipEvent) (t now now2 : Nat),
      (s.lastSlipId = some e.id → e.id ≠ "" → s.lastSlipTime = some t → t ≠ 0 →
        (now : Int) - (t : Int) ≤ (undoWindowMs : Int) →
        s.events = pre ++ [e] → e.id ∉ pre.map SlipEvent.id →
        undoLastSlip s now =
          (true, { s with events := pre, lastSlipId := none, lastSlipTime := none }) ∧
        (undoLastSlip (undoLastSlip s now).2 now2).1 = false) ∧
      (s.lastSlipId = none ∨ s.lastSlipTime = none →
        undoLastSlip s now = (false, s)) ∧
      (s.lastSlipTime = some t → (now : Int) - (t : Int) > (undoWindowMs : Int) →
        undoLastSlip s now = (false, s)) := by
  intro s pre e t now now2
  refine ⟨?_, ?_, ?_⟩
  · intro hId hne hT ht0 hwin hev hnm
    have hfilter : (pre ++ [e]).filter (fun x => x.id != e.id) = pre := by
      rw [List.filter_append]
      have h1 : pre.filter (fun x => x.id != e.id) = pre := by
        rw [List.filter_eq_self]
        intro x hx
        simp only [bne_iff_ne, ne_eq]
        intro hEq
        exact hnm (hEq ▸ List.mem_map_of_mem _ hx)
      have h2 : [e].filter (fun x => x.id != e.id) = [] := by simp
      rw [h1, h2, List.append_nil]
    have hmain : undoLastSlip s now =
        (true, { s with events := pre, lastSlipId := none, lastSlipTime := none }) := by
      simp only [undoLastSlip, hId, hT]
      rw [if_neg (by simp [hne, ht0]), if_neg (by omega)]
      rw [hev, hfilter]
    refine ⟨hmain, ?_⟩
    rw [hmain]
    simp [undoLastSlip]
  · intro h
    rcases h with h | h
    · simp only [undoLastSlip, h]
    · cases hI : s.lastSlipId <;> simp only [undoLastSlip, hI, h]
  · intro hT hwin
    cases hI : s.lastSlipId with
    | none => simp only [undoLastSlip, hI, hT]
    | some i =>
      simp only [undoLastSlip, hI, hT]
      by_cases hg : i = "" ∨ t = 0
      · rw [if_pos hg]
      · rw [if_neg hg, if_pos (by omega)]

/-- Witness for c5_undo_semantics: record at instant 1000, undo at 2000
succeeds and removes the event; a second undo at 3000 fails. -/
theorem c5_witness :
    undoLastSlip (addSlip initialState 1000 "x") 2000 =
      (true, { addSlip initialState 1000 "x" with
        events := [], lastSlipId := none, lastSlipTime := none }) ∧
    (undoLastSlip (undoLastSlip (addSlip initialState 1000 "x") 2000).2 3000).1
      = false :=
  (c5_undo_semantics (addSlip initialState 1000 "x") []
      { id := "x", timestamp := 1000, source := .manual } 1000 2000 3000).1
    (by decide) (by decide) (by decide) (by decide) (by decide) (by decide)
    (by decide)

/-! ## Claim C10: undo of an already-deleted armed event -/

/-- Claim C10: if the armed event has already been removed (no event in the
collection carries the armed id) and the window has not elapsed, undoLastSlip
still returns true, removes nothing, and clears the undo pair. -/
theorem c10_undo_after_delete :
    ∀ (s : StoreState) (i : String) (t now : Nat),
      s.lastSlipId = some i → i ≠ "" → s.lastSlipTime = some t → t ≠ 0 →
      (now : Int) - (t : Int) ≤ (undoWindowMs : Int) →
      (∀ e ∈ s.events, e.id ≠ i) →
      (undoLastSlip s now).1 = true ∧
      (undoLastSlip s now).2.events = s.events ∧
      (undoLastSlip s now).2.lastSlipId = none ∧
      (undoLastSlip s now).2.lastSlipTime = none := by
  intro s i t now hId hne hT ht0 hwin hnm
  have hfilter : s.events.filter (fun e => e.id != i) = s.events := by
    rw [List.filter_eq_self]
    intro x hx
    simpa using hnm x hx
  simp only [undoLastSlip, hId, hT]
  rw [if_neg (by simp [hne, ht0]), if_neg (by omega)]
  simp [hfilter]

/-- Witness for c10_undo_after_delete: record at 1000, delete that event,
then undo at 2000. -/
theorem c10_witness :
    (undoLastSlip (deleteSlip (addSlip initialState 1000 "x") "x") 2000).1
      = true ∧
    (undoLastSlip (deleteSlip (addSlip initialState 1000 "x") "x") 2000).2.events
      = (deleteSlip (addSlip initialState 1000 "x") "x").events ∧
    (undoLastSlip (deleteSlip (addSlip initialState 1000 "x") "x") 2000).2.lastSlipId
      = none ∧
    (undoLastSlip (deleteSlip (addSlip initialState 1000 "x") "x") 2000).2.lastSlipTime
      = none :=
  c10_undo_after_delete (deleteSlip (addSlip initialState 1000 "x") "x") "x"
    1000 2000 (by decide) (by decide) (by decide) (by decide) (by decide)
    (by decide)

/-! ## Claim C1: bestDay and worstDay selection and tie-break -/

theorem foldl_pickBest_some :
    ∀ (l : List DayCount) (b : DayCount),
      l.foldl pickBest (some b) =
        some (minPref b (firstMinBy DayCount.count l)) := by
  intro l
  induction l with
  | nil => intro b; rfl
  | cons d l ih =>
    intro b
    rw [List.foldl_cons]
    have hp : pickBest (some b) d = some (if d.count < b.count then d else b) := by
      simp only [pickBest]
      split <;> rfl
    rw [hp, ih]
    cases h : firstMinBy DayCount.count l with
    | none => simp only [firstMinBy, h, minPref]
    | some m =>
      simp only [firstMinBy, h, minPref]
      by_cases h1 : d.count < b.count
      · by_cases h2 : m.count < d.count
        · rw [if_pos h1, if_pos h2, if_pos h2]
          simp only [minPref, if_pos (Nat.lt_trans h2 h1)]
        · rw [if_pos h1, if_neg h2, if_neg h2]
          simp only [minPref, if_pos h1]
      · by_cases h2 : m.count < d.count
        · rw [if_neg h1, if_pos h2]
        · rw [if_neg h1, if_neg h2]
          simp only [minPref, if_neg h1,
            if_neg (show ¬ m.count < b.count by omega)]

theorem foldl_pickWorst_some :
    ∀ (l : List DayCount) (b : DayCount),
      l.foldl pickWorst (some b) =
        some (maxPref b (firstMaxBy DayCount.count l)) := by
  intro l
  induction l with
  | nil => intro b; rfl
  | cons d l ih =>
    intro b
    rw [List.foldl_cons]
    have hp : pickWorst (some b) d = some (if d.count > b.count then d else b) := by
      simp only [pickWorst]
      split <;> rfl
    rw [hp, ih]
    cases h : firstMaxBy DayCount.count l with
    | none => simp only [firstMaxBy, h, maxPref]
    | some m =>
      simp only [firstMaxBy, h, maxPref]
      by_cases h1 : d.count > b.count
      · by_cases h2 : m.count > d.count
        · rw [if_pos h1, if_pos h2, if_pos h2]
          simp only [maxPref, if_pos (Nat.lt_trans h1 h2)]
        · rw [if_pos h1, if_neg h2, if_neg h2]
          simp only [maxPref, if_pos h1]
      · by_cases h2 : m.count > d.count
        · rw [if_neg h1, if_pos h2]
        · rw [if_neg h1, if_neg h2]
          simp only [maxPref, if_neg h1,
            if_neg (show ¬ m.count > b.count by omega)]

theorem firstMinBy_cons (d : DayCount) (l : List DayCount) :
    firstMinBy DayCount.count (d :: l) =
      some (minPref d (firstMinBy DayCount.count l)) := by
  cases h : firstMinBy DayCount.count l
  · simp only [firstMinBy, h, minPref]
  · simp only [firstMinBy, h, minPref]
    split <;> rfl

theorem firstMaxBy_cons (d : DayCount) (l : List DayCount) :
    firstMaxBy DayCount.count (d :: l) =
      some (maxPref d (firstMaxBy DayCount.count l)) := by
  cases h : firstMaxBy DayCount.count l
  · simp only [firstMaxBy, h, maxPref]
  · simp only [firstMaxBy, h, maxPref]
    split <;> rfl

theorem bestDay_eq_firstMinBy (events : List SlipEvent) (range limit : Nat)
    (today : Int) :
    (computeStats events range limit today).bestDay =
      firstMinBy DayCount.count (dailyCountsOf events range limit today) := by
  show (dailyCountsOf events range limit today).foldl pickBest none = _
  cases hl : dailyCountsOf events range limit today with
  | nil => rfl
  | cons d l =>
    rw [List.foldl_cons]
    have hp : pickBest none d = some d := rfl
    rw [hp, foldl_pickBest_some, firstMinBy_cons]

theorem worstDay_eq_firstMaxBy (events : List SlipEvent) (range limit : Nat)
    (today : Int) :
    (computeStats events range limit today).worstDay =
      firstMaxBy DayCount.count (dailyCountsOf events range limit today) := by
  show (dailyCountsOf events range limit today).foldl pickWorst none = _
  cases hl : dailyCountsOf events range limit today with
  | nil => rfl
  | cons d l =>
    rw [List.foldl_cons]
    have hp : pickWorst none d = some d := rfl
    rw [hp, foldl_pickWorst_some, firstMaxBy_cons]

theorem firstMinBy_of_cons_ne_none (f : DayCount → Nat) (d : DayCount)
    (l : List DayCount) : firstMinBy f (d :: l) ≠ none := by
  cases h : firstMinBy f l <;> simp only [firstMinBy, h] <;> (try split) <;> simp

/-- firstMinBy picks an element of the list that is globally minimal for
count and strictly below every element preceding it: the first minimum. -/
theorem firstMinBy_decomp :
    ∀ (l : List DayCount) (b : DayCount),
      firstMinBy DayCount.count l = some b →
      ∃ pre post, l = pre ++ b :: post ∧
        (∀ x ∈ pre, b.count < x.count) ∧ (∀ x ∈ l, b.count ≤ x.count) := by
  intro l
  induction l with
  | nil => intro b h; simp [firstMinBy] at h
  | cons d l ih =>
    intro b h
    cases hl : firstMinBy DayCount.count l with
    | none =>
      have hnil : l = [] := by
        cases l with
        | nil => rfl
        | cons a l2 => exact absurd hl (firstMinBy_of_cons_ne_none _ _ _)
      subst hnil
      simp only [firstMinBy] at h
      obtain rfl : d = b := by simpa using h
      exact ⟨[], [], rfl, by simp, by simp⟩
    | some m =>
      simp only [firstMinBy, hl] at h
      by_cases hmd : m.count < d.count
      · rw [if_pos hmd] at h
        obtain rfl : m = b := by simpa using h
        obtain ⟨pre, post, hEq, hPre, hAll⟩ := ih m hl
        refine ⟨d :: pre, post, by simp [hEq], ?_, ?_⟩
        · intro x hx
          rcases List.mem_cons.mp hx with rfl | hx
          · exact hmd
          · exact hPre x hx
        · intro x hx
          rcases List.mem_cons.mp hx with rfl | hx
          · omega
          · exact hAll x hx
      · rw [if_neg hmd] at h
        obtain rfl : d = b := by simpa using h
        obtain ⟨pre, post, hEq, hPre, hAll⟩ := ih m hl
        refine ⟨[], l, by simp, by simp, ?_⟩
        intro x hx
        rcases List.mem_cons.mp hx with rfl | hx
        · omega
        · have := hAll x hx
          omega

theorem firstMaxBy_of_cons_ne_none (f : DayCount → Nat) (d : DayCount)
    (l : List DayCount) : firstMaxBy f (d :: l) ≠ none := by
  cases h : firstMaxBy f l <;> simp only [firstMaxBy, h] <;> (try split) <;> simp

/-- firstMaxBy picks an element of the list that is globally maximal for
count and strictly above every element preceding it: the first maximum. -/
theorem firstMaxBy_decomp :
    ∀ (l : List DayCount) (b : DayCount),
      firstMaxBy DayCount.count l = some b →
      ∃ pre post, l = pre ++ b :: post ∧
        (∀ x ∈ pre, x.count < b.count) ∧ (∀ x ∈ l, x.count ≤ b.count) := by
  intro l
  induction l with
  | nil => intro b h; simp [firstMaxBy] at h
  | cons d l ih =>
    intro b h
    cases hl : firstMaxBy DayCount.count l with
    | none =>
      have hnil : l = [] := by
        cases l with
        | nil => rfl
        | cons a l2 => exact absurd hl (firstMaxBy_of_cons_ne_none _ _ _)
      subst hnil
      simp only [firstMaxBy] at h
      obtain rfl : d = b := by simpa using h
      exact ⟨[], [], rfl, by simp, by simp⟩
    | some m =>
      simp only [firstMaxBy, hl] at h
      by_cases hmd : m.count > d.count
      · rw [if_pos hmd] at h
        obtain rfl : m = b := by simpa using h
        obtain ⟨pre, post, hEq, hPre, hAll⟩ := ih m hl
        refine ⟨d :: pre, post, by simp [hEq], ?_, ?_⟩
        · intro x hx
          rcases List.mem_cons.mp hx with rfl | hx
          · exact hmd
          · exact hPre x hx
        · intro x hx
          rcases List.mem_cons.mp hx with rfl | hx
          · omega
          · exact hAll x hx
      · rw [if_neg hmd] at h
        obtain rfl : d = b := by simpa using h
        obtain ⟨pre, post, hEq, hPre, hAll⟩ := ih m hl
        refine ⟨[], l, by simp, by simp, ?_⟩
        intro x hx
        rcases List.mem_cons.mp hx with rfl | hx
        · omega
        · have := hAll x hx
          omega

/-- Claim C1, counterexample: with no events, range 2 and today = 10 the two
range days tie at count 0, yet bestDay and worstDay both resolve to day 10 —
the most recent day, not the first day in ascending-date order (day 9). -/
theorem c1_counterexample :
    (computeStats [] 2 1 10).dailyCounts =
      [{ date := 10, count := 0, isOverLimit := false },
       { date := 9, count := 0, isOverLimit := false }] ∧
    (computeStats [] 2 1 10).bestDay =
      some { date := 10, count := 0, isOverLimit := false } ∧
    (computeStats [] 2 1 10).worstDay =
      some { date := 10, count := 0, isOverLimit := false } := by decide

/-- Claim C1, amended: bestDay is the first minimum-count entry and worstDay
the first maximum-count entry of dailyCounts in its own iteration order,
which is newest-first (dailyCounts lists the reverse of the ascending range
dates), so a tie on the extreme count is resolved deterministically to the
most recent tied day, for both bestDay and worstDay. -/
theorem c1_amended (events : List SlipEvent) (range limit : Nat) (today : Int) :
    (computeStats events range limit today).dailyCounts.map DayCount.date =
      (lastNDays range today).reverse ∧
    (computeStats events range limit today).bestDay =
      firstMinBy DayCount.count (computeStats events range limit today).dailyCounts ∧
    (computeStats events range limit today).worstDay =
      firstMaxBy DayCount.count (computeStats events range limit today).dailyCounts := by
  refine ⟨?_, ?_, ?_⟩
  · show (dailyCountsOf events range limit today).map DayCount.date = _
    simp [dailyCountsOf, List.map_map, Function.comp_def]
  · show (computeStats events range limit today).bestDay =
      firstMinBy DayCount.count (dailyCountsOf events range limit today)
    exact bestDay_eq_firstMinBy events range limit today
  · show (computeStats events range limit today).worstDay =
      firstMaxBy DayCount.count (dailyCountsOf events range limit today)
    exact worstDay_eq_firstMaxBy events range limit today

/-! ## Claim C6: pattern gating, winning-bucket threshold and tie-break -/

theorem maxScan_spec (c : Nat → Nat) :
    ∀ (ks : List Nat) (m0 k0 : Nat), ks.Pairwise (· < ·) →
      m0 ≤ (ks.foldl (fun m k => if c k > m.1 then (c k, k) else m) (m0, k0)).1 ∧
      (∀ j ∈ ks, c j ≤ (ks.foldl (fun m k => if c k > m.1 then (c k, k) else m) (m0, k0)).1) ∧
      ((ks.foldl (fun m k => if c k > m.1 then (c k, k) else m) (m0, k0)) = (m0, k0) ∨
        ((ks.foldl (fun m k => if c k > m.1 then (c k, k) else m) (m0, k0)).2 ∈ ks ∧
         (ks.foldl (fun m k => if c k > m.1 then (c k, k) else m) (m0, k0)).1 =
           c (ks.foldl (fun m k => if c k > m.1 then (c k, k) else m) (m0, k0)).2 ∧
         m0 < (ks.foldl (fun m k => if c k > m.1 then (c k, k) else m) (m0, k0)).1 ∧
         ∀ j ∈ ks, j < (ks.foldl (fun m k => if c k > m.1 then (c k, k) else m) (m0, k0)).2 →
           c j < (ks.foldl (fun m k => if c k > m.1 then (c k, k) else m) (m0, k0)).1)) := by
  intro ks
  induction ks with
  | nil => intro m0 k0 _; exact ⟨Nat.le_refl _, by simp, Or.inl rfl⟩
  | cons k ks ih =>
    intro m0 k0 hpw
    have hk : ∀ j ∈ ks, k < j := (List.pairwise_cons.mp hpw).1
    have hpw2 : ks.Pairwise (· < ·) := (List.pairwise_cons.mp hpw).2
    rw [List.foldl_cons]
    by_cases hck : c k > m0
    · rw [if_pos hck]
      obtain ⟨h1, h2, h3⟩ := ih (c k) k hpw2
      refine ⟨by omega, ?_, ?_⟩
      · intro j hj
        rcases List.mem_cons.mp hj with rfl | hj
        · exact h1
        · exact h2 j hj
      · right
        rcases h3 with heq | ⟨hmem, hceq, hlt, hprev⟩
        · rw [heq]
          refine ⟨List.mem_cons_self _ _, rfl, hck, ?_⟩
          intro j hj hjk
          rcases List.mem_cons.mp hj with rfl | hj
          · omega
          · exact absurd hjk (by have := hk j hj; omega)
        · refine ⟨List.mem_cons_of_mem _ hmem, hceq, by omega, ?_⟩
          intro j hj hjr
          rcases List.mem_cons.mp hj with rfl | hj
          · exact hlt
          · exact hprev j hj hjr
    · rw [if_neg hck]
      obtain ⟨h1, h2, h3⟩ := ih m0 k0 hpw2
      refine ⟨h1, ?_, ?_⟩
      · intro j hj
        rcases List.mem_cons.mp hj with rfl | hj
        · omega
        · exact h2 j hj
      · rcases h3 with heq | ⟨hmem, hceq, hlt, hprev⟩
        · exact Or.inl heq
        · right
          refine ⟨List.mem_cons_of_mem _ hmem, hceq, hlt, ?_⟩
          intro j hj hjr
          rcases List.mem_cons.mp hj with rfl | hj
          · omega
          · exact hprev j hj hjr

theorem maxBucket_spec (c : Nat → Nat) (n : Nat) (hc : ∀ k, n ≤ k → c k = 0)
    (hpos : 1 ≤ (maxBucket c (List.range n)).1) :
    c (maxBucket c (List.range n)).2 = (maxBucket c (List.range n)).1 ∧
    (∀ j, c j ≤ (maxBucket c (List.range n)).1) ∧
    (∀ j, j < (maxBucket c (List.range n)).2 →
      c j < (maxBucket c (List.range n)).1) := by
  have hpw : ((List.range n).filter (fun k => c k != 0)).Pairwise (· < ·) :=
    (List.pairwise_lt_range n).filter _
  obtain ⟨h1, h2, h3⟩ :=
    maxScan_spec c ((List.range n).filter (fun k => c k != 0)) 0 0 hpw
  have hmb : maxBucket c (List.range n) =
      ((List.range n).filter (fun k => c k != 0)).foldl
        (fun m k => if c k > m.1 then (c k, k) else m) (0, 0) := rfl
  rcases h3 with heq | ⟨hmem, hceq, hlt, hprev⟩
  · exfalso
    rw [hmb, heq] at hpos
    omega
  · rw [hmb]
    refine ⟨hceq.symm, ?_, ?_⟩
    · intro j
      by_cases hj : j < n
      · by_cases hcj : c j = 0
        · omega
        · exact h2 j (List.mem_filter.mpr ⟨List.mem_range.mpr hj, by simpa using hcj⟩)
      · have := hc j (by omega)
        omega
    · intro j hj
      have hr2 : (((List.range n).filter (fun k => c k != 0)).foldl
          (fun m k => if c k > m.1 then (c k, k) else m) (0, 0)).2 < n := by
        have := List.mem_range.mp (List.mem_filter.mp hmem).1
        omega
      by_cases hcj : c j = 0
      · rw [← hmb] at *
        omega
      · exact hprev j
          (List.mem_filter.mpr ⟨List.mem_range.mpr (by omega), by simpa using hcj⟩) hj

theorem eventHour_lt (e : SlipEvent) : eventHour e < 24 := by
  unfold eventHour msPerDay msPerHour
  omega

theorem eventWeekday_lt (e : SlipEvent) : eventWeekday e < 7 := by
  unfold eventWeekday
  omega

theorem hourBucketCount_eq_zero (events : List SlipEvent) (h : Nat)
    (hh : 24 ≤ h) : hourBucketCount events h = 0 := by
  unfold hourBucketCount
  rw [List.length_eq_zero, List.filter_eq_nil_iff]
  intro e _
  have := eventHour_lt e
  simp only [beq_iff_eq]
  omega

theorem dowBucketCount_eq_zero (events : List SlipEvent) (w : Nat)
    (hw : 7 ≤ w) : dowBucketCount events w = 0 := by
  unfold dowBucketCount
  rw [List.length_eq_zero, List.filter_eq_nil_iff]
  intro e _
  have := eventWeekday_lt e
  simp only [beq_iff_eq]
  omega

/-- Claim C6: peakHour and peakDayOfWeek are both null unless the in-range
events span at least 3 distinct dates and number at least 3; a reported
pattern's bucket has count at least 2, is maximal among all buckets, and
strictly exceeds every smaller-keyed bucket, so an exact tie resolves to the
lowest bucket key (Object.entries iterates the integer keys in ascending
order and only strictly greater counts displace the running winner). -/
theorem c6_pattern_gating (events : List SlipEvent) (range limit : Nat)
    (today : Int) :
    (¬ (3 ≤ uniqueEventDays (eventsInRange events range today) ∧
        3 ≤ (eventsInRange events range today).length) →
      (computeStats events range limit today).peakHour = none ∧
      (computeStats events range limit today).peakDayOfWeek = none) ∧
    (∀ h, (computeStats events range limit today).peakHour = some h →
      2 ≤ hourBucketCount (eventsInRange events range today) h ∧
      (∀ h2, hourBucketCount (eventsInRange events range today) h2 ≤
        hourBucketCount (eventsInRange events range today) h) ∧
      (∀ h2, h2 < h → hourBucketCount (eventsInRange events range today) h2 <
        hourBucketCount (eventsInRange events range today) h)) ∧
    (∀ w, (computeStats events range limit today).peakDayOfWeek = some w →
      2 ≤ dowBucketCount (eventsInRange events range today) w ∧
      (∀ w2, dowBucketCount (eventsInRange events range today) w2 ≤
        dowBucketCount (eventsInRange events range today) w) ∧
      (∀ w2, w2 < w → dowBucketCount (eventsInRange events range today) w2 <
        dowBucketCount (eventsInRange events range today) w)) := by
  have hph : (computeStats events range limit today).peakHour =
      (if (uniqueEventDays (eventsInRange events range today) ≥ MIN_DAYS_FOR_PATTERNS ∧
           (eventsInRange events range today).length ≥ 3) then
        (if (maxBucket (hourBucketCount (eventsInRange events range today))
              (List.range 24)).1 ≥ 2 then
          some (maxBucket (hourBucketCount (eventsInRange events range today))
            (List.range 24)).2
        else none)
      else none) := rfl
  have hpd : (computeStats events range limit today).peakDayOfWeek =
      (if (uniqueEventDays (eventsInRange events range today) ≥ MIN_DAYS_FOR_PATTERNS ∧
           (eventsInRange events range today).length ≥ 3) then
        (if (maxBucket (dowBucketCount (eventsInRange events range today))
              (List.range 7)).1 ≥ 2 then
          some (maxBucket (dowBucketCount (eventsInRange events range today))
            (List.range 7)).2
        else none)
      else none) := rfl
  refine ⟨?_, ?_, ?_⟩
  · intro hnot
    have hnot2 : ¬ (uniqueEventDays (eventsInRange events range today) ≥ MIN_DAYS_FOR_PATTERNS ∧
        (eventsInRange events range today).length ≥ 3) := hnot
    rw [hph, hpd, if_neg hnot2, if_neg hnot2]
    exact ⟨rfl, rfl⟩
  · intro h hsome
    rw [hph] at hsome
    by_cases hcond : (uniqueEventDays (eventsInRange events range today) ≥ MIN_DAYS_FOR_PATTERNS ∧
        (eventsInRange events range today).length ≥ 3)
    · rw [if_pos hcond] at hsome
      by_cases hmax : (maxBucket (hourBucketCount (eventsInRange events range today))
          (List.range 24)).1 ≥ 2
      · rw [if_pos hmax] at hsome
        obtain rfl : (maxBucket (hourBucketCount (eventsInRange events range today))
            (List.range 24)).2 = h := by simpa using hsome
        obtain ⟨hceq, hall, hfirst⟩ := maxBucket_spec
          (hourBucketCount (eventsInRange events range today)) 24
          (fun k hk => hourBucketCount_eq_zero _ k hk) (by omega)
        refine ⟨by omega, ?_, ?_⟩
        · intro h2; have := hall h2; omega
        · intro h2 hlt; have := hfirst h2 hlt; omega
      · rw [if_neg hmax] at hsome
        exact absurd hsome (by simp)
    · rw [if_neg hcond] at hsome
      exact absurd hsome (by simp)
  · intro w hsome
    rw [hpd] at hsome
    by_cases hcond : (uniqueEventDays (eventsInRange events range today) ≥ MIN_DAYS_FOR_PATTERNS ∧
        (eventsInRange events range today).length ≥ 3)
    · rw [if_pos hcond] at hsome
      by_cases hmax : (maxBucket (dowBucketCount (eventsInRange events range today))
          (List.range 7)).1 ≥ 2
      · rw [if_pos hmax] at hsome
        obtain rfl : (maxBucket (dowBucketCount (eventsInRange events range today))
            (List.range 7)).2 = w := by simpa using hsome
        obtain ⟨hceq, hall, hfirst⟩ := maxBucket_spec
          (dowBucketCount (eventsInRange events range today)) 7
          (fun k hk => dowBucketCount_eq_zero _ k hk) (by omega)
        refine ⟨by omega, ?_, ?_⟩
        · intro w2; have := hall w2; omega
        · intro w2 hlt; have := hfirst w2 hlt; omega
      · rw [if_neg hmax] at hsome
        exact absurd hsome (by simp)
    · rw [if_neg hcond] at hsome
      exact absurd hsome (by simp)

/-- Witness for c6_pattern_gating: with no events the gate refuses patterns,
and on three one-per-day events sharing hour 9 the reported winning hour
bucket 9 holds at least two events. -/
theorem c6_witness :
    (computeStats [] 7 1 100).peakHour = none ∧
    (computeStats [] 7 1 100).peakDayOfWeek = none ∧
    2 ≤ hourBucketCount (eventsInRange c6events 7 100) 9 :=
  ⟨((c6_pattern_gating [] 7 1 100).1 (by decide)).1,
   ((c6_pattern_gating [] 7 1 100).1 (by decide)).2,
   ((c6_pattern_gating c6events 7 1 100).2.1 9 (by decide)).1⟩

/-! ## Claim C8: lexicographic order of formatted date keys -/

theorem digitsAux_eq (fuel : Nat) : ∀ n, n ≤ fuel → digitsAux fuel n = Nat.digits 10 n := by
  induction fuel with
  | zero => intro n hn; interval_cases n; simp [digitsAux]
  | succ f ih =>
    intro n hn
    by_cases h0 : n = 0
    · subst h0; simp [digitsAux]
    · rw [digitsAux, if_neg h0, Nat.digits_def' (by norm_num : (1:Nat) < 10) (by omega),
        ih (n / 10) (by omega)]

theorem decDigits_eq (n : Nat) : decDigits n = Nat.digits 10 n :=
  digitsAux_eq n n (Nat.le_refl n)

def valMSB (L : List Nat) : Nat := L.foldl (fun a d => 10 * a + d) 0

theorem valMSB_foldl (L : List Nat) : ∀ a : Nat,
    L.foldl (fun a d => 10 * a + d) a = a * 10 ^ L.length + valMSB L := by
  induction L with
  | nil => intro a; simp [valMSB]
  | cons d L ih =>
    intro a
    rw [List.foldl_cons, ih (10 * a + d)]
    have h2 : valMSB (d :: L) = d * 10 ^ L.length + valMSB L := by
      show List.foldl _ (10 * 0 + d) L = _
      rw [ih (10 * 0 + d)]
      ring_nf
    rw [h2, List.length_cons]
    ring

theorem valMSB_cons (d : Nat) (L : List Nat) :
    valMSB (d :: L) = d * 10 ^ L.length + valMSB L := by
  show List.foldl _ (10 * 0 + d) L = _
  rw [valMSB_foldl L (10 * 0 + d)]
  ring_nf

theorem valMSB_lt (L : List Nat) (h : ∀ x ∈ L, x < 10) : valMSB L < 10 ^ L.length := by
  induction L with
  | nil => simp [valMSB]
  | cons d L ih =>
    rw [valMSB_cons, List.length_cons]
    have hd : d < 10 := h d (List.mem_cons_self _ _)
    have hL := ih (fun x hx => h x (List.mem_cons_of_mem _ hx))
    calc d * 10 ^ L.length + valMSB L
        < d * 10 ^ L.length + 10 ^ L.length := by omega
      _ = (d + 1) * 10 ^ L.length := by ring
      _ ≤ 10 * 10 ^ L.length := Nat.mul_le_mul_right _ (by omega)
      _ = 10 ^ (L.length + 1) := by ring

theorem valMSB_reverse (L : List Nat) : valMSB L.reverse = Nat.ofDigits 10 L := by
  induction L with
  | nil => simp [valMSB, Nat.ofDigits]
  | cons x L ih =>
    rw [List.reverse_cons, Nat.ofDigits_cons]
    show List.foldl _ 0 (L.reverse ++ [x]) = _
    rw [List.foldl_append]
    have : List.foldl (fun a d => 10 * a + d) 0 L.reverse = valMSB L.reverse := rfl
    rw [List.foldl_cons]
    show (10 * valMSB L.reverse + x : Nat) = _
    rw [ih]
    ring

theorem valMSB_digits_reverse (n : Nat) :
    valMSB ((Nat.digits 10 n).reverse) = n := by
  rw [valMSB_reverse, Nat.ofDigits_digits]

theorem lexConsIff {α : Type} (r : α → α → Prop) (a b : α) (l m : List α) :
    List.Lex r (a :: l) (b :: m) ↔ r a b ∨ (a = b ∧ List.Lex r l m) := by
  constructor
  · intro h
    cases h with
    | rel h => exact Or.inl h
    | cons h => exact Or.inr ⟨rfl, h⟩
  · intro h
    rcases h with h | ⟨rfl, h⟩
    · exact List.Lex.rel h
    · exact List.Lex.cons h

theorem digitChar_lt_iff : ∀ a < 10, ∀ b < 10,
    (Nat.digitChar a < Nat.digitChar b ↔ a < b) := by decide

theorem digitChar_eq_iff : ∀ a < 10, ∀ b < 10,
    (Nat.digitChar a = Nat.digitChar b ↔ a = b) := by decide

theorem lex_map_digitChar : ∀ (L M : List Nat), (∀ x ∈ L, x < 10) → (∀ x ∈ M, x < 10) →
    (List.Lex (· < ·) (L.map Nat.digitChar) (M.map Nat.digitChar) ↔
      List.Lex (· < ·) L M) := by
  intro L
  induction L with
  | nil =>
    intro M _ _
    cases M with
    | nil => simp
    | cons y M =>
      simp only [List.map_cons]
      exact iff_of_true List.Lex.nil List.Lex.nil
  | cons x L ih =>
    intro M hL hM
    cases M with
    | nil =>
      constructor <;> intro h <;> exact absurd h (List.Lex.not_nil_right _ _)
    | cons y M =>
      rw [List.map_cons, List.map_cons, lexConsIff, lexConsIff]
      have hx : x < 10 := hL x (List.mem_cons_self _ _)
      have hy : y < 10 := hM y (List.mem_cons_self _ _)
      rw [digitChar_lt_iff x hx y hy, digitChar_eq_iff x hx y hy,
        ih M (fun z hz => hL z (List.mem_cons_of_mem _ hz))
             (fun z hz => hM z (List.mem_cons_of_mem _ hz))]

theorem map_digitChar_inj : ∀ (L M : List Nat), (∀ x ∈ L, x < 10) → (∀ x ∈ M, x < 10) →
    (L.map Nat.digitChar = M.map Nat.digitChar ↔ L = M) := by
  intro L
  induction L with
  | nil =>
    intro M _ _
    cases M <;> simp
  | cons x L ih =>
    intro M hL hM
    cases M with
    | nil => simp
    | cons y M =>
      simp only [List.map_cons, List.cons.injEq]
      rw [digitChar_eq_iff x (hL x (List.mem_cons_self _ _)) y (hM y (List.mem_cons_self _ _)),
        ih M (fun z hz => hL z (List.mem_cons_of_mem _ hz))
             (fun z hz => hM z (List.mem_cons_of_mem _ hz))]

theorem lex_digits_iff_val : ∀ (L M : List Nat), L.length = M.length →
    (∀ x ∈ L, x < 10) → (∀ x ∈ M, x < 10) →
    (List.Lex (· < ·) L M ↔ valMSB L < valMSB M) := by
  intro L
  induction L with
  | nil =>
    intro M hlen _ _
    have : M = [] := List.length_eq_zero.mp hlen.symm
    subst this
    simp [valMSB]
  | cons x L ih =>
    intro M hlen hL hM
    cases M with
    | nil => simp at hlen
    | cons y M =>
      have hlen2 : L.length = M.length := by simpa using hlen
      have hx : x < 10 := hL x (List.mem_cons_self _ _)
      have hy : y < 10 := hM y (List.mem_cons_self _ _)
      have hLd : ∀ z ∈ L, z < 10 := fun z hz => hL z (List.mem_cons_of_mem _ hz)
      have hMd : ∀ z ∈ M, z < 10 := fun z hz => hM z (List.mem_cons_of_mem _ hz)
      have hvL : valMSB L < 10 ^ L.length := valMSB_lt L hLd
      have hvM : valMSB M < 10 ^ M.length := valMSB_lt M hMd
      rw [lexConsIff, valMSB_cons, valMSB_cons, ← hlen2, ih M hlen2 hLd hMd]
      set B := 10 ^ L.length with hB
      have hBpos : 0 < B := Nat.pos_pow_of_pos _ (by norm_num)
      have hvM2 : valMSB M < B := by rw [hB, hlen2]; exact hvM
      constructor
      · intro h
        rcases h with h | ⟨rfl, h⟩
        · have hmul : (x + 1) * B ≤ y * B := Nat.mul_le_mul_right _ (by omega)
          have : x * B + B ≤ y * B := by rw [Nat.succ_mul] at hmul; omega
          omega
        · omega
      · intro h
        rcases Nat.lt_trichotomy x y with hxy | hxy | hxy
        · exact Or.inl hxy
        · subst hxy
          right
          exact ⟨rfl, by omega⟩
        · exfalso
          have hmul : (y + 1) * B ≤ x * B := Nat.mul_le_mul_right _ (by omega)
          have : y * B + B ≤ x * B := by rw [Nat.succ_mul] at hmul; omega
          omega

theorem toList_append (s t : String) : (s ++ t).toList = s.toList ++ t.toList := by
  simp [String.toList, String.data_append]

theorem toList_asString_eq (l : List Char) : (l.asString).toList = l := rfl

theorem digits_lt_ten (n : Nat) : ∀ x ∈ Nat.digits 10 n, x < 10 :=
  fun _ hx => Nat.digits_lt_base (by norm_num) hx

theorem decimalString_toList (n : Nat) (hn : 1 ≤ n) :
    (decimalString n).toList = ((Nat.digits 10 n).reverse).map Nat.digitChar := by
  rw [decimalString, if_neg (by omega), List.toList_asString, digitChars, decDigits_eq,
    List.map_reverse]

theorem decimalString_length (n : Nat) (hn : 1 ≤ n) :
    (decimalString n).length = (Nat.digits 10 n).length := by
  have h : (decimalString n).length = (decimalString n).toList.length := rfl
  rw [h, decimalString_toList n hn, List.length_map, List.length_reverse]

theorem year_lex_iff (y1 y2 : Nat) (h1 : 1 ≤ y1) (h2 : 1 ≤ y2)
    (hlen : (Nat.digits 10 y1).length = (Nat.digits 10 y2).length) :
    List.Lex (· < ·) (decimalString y1).toList (decimalString y2).toList ↔ y1 < y2 := by
  rw [decimalString_toList y1 h1, decimalString_toList y2 h2,
    lex_map_digitChar _ _ (fun x hx => digits_lt_ten y1 x (List.mem_reverse.mp hx))
      (fun x hx => digits_lt_ten y2 x (List.mem_reverse.mp hx)),
    lex_digits_iff_val _ _ (by simp [hlen])
      (fun x hx => digits_lt_ten y1 x (List.mem_reverse.mp hx))
      (fun x hx => digits_lt_ten y2 x (List.mem_reverse.mp hx)),
    valMSB_digits_reverse, valMSB_digits_reverse]

theorem year_eq_iff (y1 y2 : Nat) (h1 : 1 ≤ y1) (h2 : 1 ≤ y2) :
    (decimalString y1).toList = (decimalString y2).toList ↔ y1 = y2 := by
  rw [decimalString_toList y1 h1, decimalString_toList y2 h2,
    map_digitChar_inj _ _ (fun x hx => digits_lt_ten y1 x (List.mem_reverse.mp hx))
      (fun x hx => digits_lt_ten y2 x (List.mem_reverse.mp hx))]
  constructor
  · intro h
    have := congrArg List.reverse h
    simp only [List.reverse_reverse] at this
    have h2 := congrArg (Nat.ofDigits 10) this
    rwa [Nat.ofDigits_digits, Nat.ofDigits_digits] at h2
  · intro h; rw [h]

theorem pad2_toList (m : Nat) (hm : m ≤ 99) :
    (pad2 m).toList = [Nat.digitChar (m / 10), Nat.digitChar (m % 10)] := by
  by_cases h0 : m = 0
  · subst h0; decide
  · by_cases h10 : m < 10
    · have hd : Nat.digits 10 m = [m] := by
        rw [Nat.digits_def' (by norm_num : (1:Nat) < 10) (by omega)]
        simp [Nat.mod_eq_of_lt h10, Nat.div_eq_of_lt h10]
      have htl : (decimalString m).toList = [Nat.digitChar m] := by
        rw [decimalString_toList m (by omega), hd]
        rfl
      have hlen : (decimalString m).length = 1 := by
        show (decimalString m).toList.length = 1
        rw [htl]
        rfl
      show ((List.replicate (2 - (decimalString m).length) '0').asString
        ++ decimalString m).toList = _
      rw [toList_append, toList_asString_eq, hlen, htl]
      have : m / 10 = 0 := Nat.div_eq_of_lt h10
      rw [this, Nat.mod_eq_of_lt h10]
      rfl
    · have hq1 : 1 ≤ m / 10 := by omega
      have hq2 : m / 10 < 10 := by omega
      have hd : Nat.digits 10 m = [m % 10, m / 10] := by
        rw [Nat.digits_def' (by norm_num : (1:Nat) < 10) (by omega),
          Nat.digits_def' (by norm_num : (1:Nat) < 10) (by omega)]
        simp [Nat.mod_eq_of_lt hq2, Nat.div_eq_of_lt hq2]
      have htl : (decimalString m).toList =
          [Nat.digitChar (m / 10), Nat.digitChar (m % 10)] := by
        rw [decimalString_toList m (by omega), hd]
        rfl
      have hlen : (decimalString m).length = 2 := by
        show (decimalString m).toList.length = 2
        rw [htl]
        rfl
      show ((List.replicate (2 - (decimalString m).length) '0').asString
        ++ decimalString m).toList = _
      rw [toList_append, toList_asString_eq, hlen, htl]
      rfl

theorem pad2_lex_iff (m1 m2 : Nat) (h1 : m1 ≤ 99) (h2 : m2 ≤ 99) :
    (List.Lex (· < ·) (pad2 m1).toList (pad2 m2).toList ↔ m1 < m2) := by
  rw [pad2_toList m1 h1, pad2_toList m2 h2]
  have e1 : [Nat.digitChar (m1 / 10), Nat.digitChar (m1 % 10)] =
      ([m1 / 10, m1 % 10]).map Nat.digitChar := rfl
  have e2 : [Nat.digitChar (m2 / 10), Nat.digitChar (m2 % 10)] =
      ([m2 / 10, m2 % 10]).map Nat.digitChar := rfl
  rw [e1, e2, lex_map_digitChar _ _ (by intro x hx; simp at hx; omega)
    (by intro x hx; simp at hx; omega),
    lex_digits_iff_val [m1 / 10, m1 % 10] [m2 / 10, m2 % 10] (by simp)
    (by intro x hx; simp at hx; omega)
    (by intro x hx; simp at hx; omega)]
  have v1 : valMSB [m1 / 10, m1 % 10] = m1 := by
    rw [valMSB_cons, valMSB_cons]
    show m1 / 10 * 10 ^ 1 + (m1 % 10 * 10 ^ 0 + valMSB []) = m1
    simp [valMSB]
    omega
  have v2 : valMSB [m2 / 10, m2 % 10] = m2 := by
    rw [valMSB_cons, valMSB_cons]
    show m2 / 10 * 10 ^ 1 + (m2 % 10 * 10 ^ 0 + valMSB []) = m2
    simp [valMSB]
    omega
  rw [v1, v2]

theorem pad2_eq_iff (m1 m2 : Nat) (h1 : m1 ≤ 99) (h2 : m2 ≤ 99) :
    ((pad2 m1).toList = (pad2 m2).toList ↔ m1 = m2) := by
  rw [pad2_toList m1 h1, pad2_toList m2 h2]
  have e1 : [Nat.digitChar (m1 / 10), Nat.digitChar (m1 % 10)] =
      ([m1 / 10, m1 % 10]).map Nat.digitChar := rfl
  have e2 : [Nat.digitChar (m2 / 10), Nat.digitChar (m2 % 10)] =
      ([m2 / 10, m2 % 10]).map Nat.digitChar := rfl
  rw [e1, e2, map_digitChar_inj _ _ (by intro x hx; simp at hx; omega)
    (by intro x hx; simp at hx; omega)]
  constructor
  · intro h
    simp only [List.cons.injEq] at h
    omega
  · intro h
    rw [h]

theorem lex_append_iff : ∀ (A C : List Char), A.length = C.length → ∀ (B D : List Char),
    (List.Lex (· < ·) (A ++ B) (C ++ D) ↔
      List.Lex (· < ·) A C ∨ (A = C ∧ List.Lex (· < ·) B D)) := by
  intro A
  induction A with
  | nil =>
    intro C hlen B D
    have : C = [] := List.length_eq_zero.mp hlen.symm
    subst this
    simp only [List.nil_append]
    constructor
    · intro h
      exact Or.inr ⟨by trivial, h⟩
    · intro h
      rcases h with h | ⟨_, h⟩
      · exact absurd h (List.Lex.not_nil_right _ _)
      · exact h
  | cons a A ih =>
    intro C hlen B D
    cases C with
    | nil => simp at hlen
    | cons c C =>
      have hlen2 : A.length = C.length := by simpa using hlen
      simp only [List.cons_append]
      rw [lexConsIff, lexConsIff, ih C hlen2 B D]
      constructor
      · rintro (h | ⟨rfl, h | ⟨rfl, h⟩⟩)
        · exact Or.inl (Or.inl h)
        · exact Or.inl (Or.inr ⟨rfl, h⟩)
        · exact Or.inr ⟨rfl, h⟩
      · rintro ((h | ⟨rfl, h⟩) | ⟨heq, h⟩)
        · exact Or.inl h
        · exact Or.inr ⟨rfl, Or.inl h⟩
        · injection heq with heq1 heq2
          subst heq1
          subst heq2
          exact Or.inr ⟨rfl, Or.inr ⟨rfl, h⟩⟩

theorem formatDateString_toList (y m d : Nat) :
    (formatDateString y m d).toList =
      (decimalString y).toList ++
        '-' :: ((pad2 m).toList ++ '-' :: (pad2 d).toList) := by
  show (decimalString y ++ "-" ++ pad2 m ++ "-" ++ pad2 d).toList = _
  rw [toList_append, toList_append, toList_append, toList_append]
  have hdash : ("-" : String).toList = ['-'] := rfl
  rw [hdash]
  simp [List.append_assoc]

theorem pad2_toList_length (m : Nat) (hm : m ≤ 99) : (pad2 m).toList.length = 2 := by
  rw [pad2_toList m hm]
  rfl

theorem dash_not_lt : ¬ (('-' : Char) < '-') := by decide

/-- Claim C8, amended: for any two valid common-era local calendar dates
whose years have decimal representations of the same length (in particular
any two years from 1000 through 9999), the YYYY-MM-DD strings produced by
formatDateString compare lexicographically exactly as the dates compare
chronologically; the restriction is forced because the year, unlike month
and day, is not zero-padded. -/
theorem c8_amended (y1 m1 d1 y2 m2 d2 : Nat) (hy1 : 1 ≤ y1) (hy2 : 1 ≤ y2)
    (hm1 : 1 ≤ m1) (hm1b : m1 ≤ 12) (hd1 : 1 ≤ d1) (hd1b : d1 ≤ 31)
    (hm2 : 1 ≤ m2) (hm2b : m2 ≤ 12) (hd2 : 1 ≤ d2) (hd2b : d2 ≤ 31)
    (hlen : (decimalString y1).length = (decimalString y2).length) :
    (formatDateString y1 m1 d1 < formatDateString y2 m2 d2 ↔
      dateLt y1 m1 d1 y2 m2 d2) := by
  rw [String.lt_iff_toList_lt]
  show List.Lex (· < ·) (formatDateString y1 m1 d1).toList
    (formatDateString y2 m2 d2).toList ↔ _
  have hdiglen : (Nat.digits 10 y1).length = (Nat.digits 10 y2).length := by
    rw [← decimalString_length y1 hy1, ← decimalString_length y2 hy2]
    exact hlen
  have hylen : (decimalString y1).toList.length = (decimalString y2).toList.length := hlen
  rw [formatDateString_toList, formatDateString_toList,
    lex_append_iff _ _ hylen, lexConsIff,
    lex_append_iff _ _ (by rw [pad2_toList_length m1 (by omega),
      pad2_toList_length m2 (by omega)]), lexConsIff,
    year_lex_iff y1 y2 hy1 hy2 hdiglen, year_eq_iff y1 y2 hy1 hy2,
    pad2_lex_iff m1 m2 (by omega) (by omega), pad2_eq_iff m1 m2 (by omega) (by omega),
    pad2_lex_iff d1 d2 (by omega) (by omega)]
  rw [dateLt]
  constructor
  · rintro (h | ⟨rfl, h | ⟨-, h | ⟨rfl, h | ⟨-, h⟩⟩⟩⟩)
    · exact Or.inl h
    · exact absurd h dash_not_lt
    · exact Or.inr ⟨rfl, Or.inl h⟩
    · exact absurd h dash_not_lt
    · exact Or.inr ⟨rfl, Or.inr ⟨rfl, h⟩⟩
  · rintro (h | ⟨rfl, h | ⟨rfl, h⟩⟩)
    · exact Or.inl h
    · exact Or.inr ⟨rfl, Or.inr ⟨rfl, Or.inl h⟩⟩
    · exact Or.inr ⟨rfl, Or.inr ⟨rfl, Or.inr ⟨rfl, Or.inr ⟨rfl, h⟩⟩⟩⟩

/-- Claim C8, counterexample: the year field is not zero-padded, so within
the common era the date 999-12-31 formats to a string that compares
lexicographically above the string of the chronologically later date
1000-01-01. -/
theorem c8_counterexample :
    dateLt 999 12 31 1000 1 1 ∧
    formatDateString 1000 1 1 < formatDateString 999 12 31 := by
  constructor
  · exact Or.inl (by norm_num)
  · rw [String.lt_iff_toList_lt]
    decide

/-- Witness for c8_amended on a concrete same-width pair of dates. -/
theorem c8_witness :
    (formatDateString 2025 1 16 < formatDateString 2025 1 17 ↔
      dateLt 2025 1 16 2025 1 17) :=
  c8_amended 2025 1 16 2025 1 17 (by norm_num) (by norm_num) (by norm_num)
    (by norm_num) (by norm_num) (by norm_num) (by norm_num) (by norm_num)
    (by norm_num) (by norm_num) rfl

end Slip
